import Mathlib

/-!
Shallow embedding of the pril UEFI boot stub, covering the firmware
memory-map acquisition path (src/efi/malloc.rs), the system-table handle
(src/efi.rs), and the ACPI discovery pipeline (src/efi/acpi.rs and
src/efi/acpi/*).  Machine integers are modelled as Nat with explicit
reductions modulo 2^w where the Rust arithmetic can wrap; raw physical
memory is a byte oracle of type Nat → Nat; abort paths of the code
(assert failures, Option/Result unwraps, todo) are explicit result
constructors.
-/

namespace Pril

/-- 2^64, the modulus of u64/usize arithmetic. -/
def U64 : Nat := 18446744073709551616

/-- One byte of raw physical memory; the oracle is reduced mod 256 so that
every function of it sees well-formed bytes. -/
def readByte (mem : Nat → Nat) (a : Nat) : Nat := mem a % 256

/-- Little-endian read of n bytes starting at a, as all the unaligned
reads of the code perform on the x86 targets it supports. -/
def readLE (mem : Nat → Nat) (a : Nat) : Nat → Nat
  | 0 => 0
  | n + 1 => readByte mem a + 256 * readLE mem (a + 1) n

def readU16 (mem : Nat → Nat) (a : Nat) : Nat := readLE mem a 2

def readU32 (mem : Nat → Nat) (a : Nat) : Nat := readLE mem a 4

def readU64 (mem : Nat → Nat) (a : Nat) : Nat := readLE mem a 8

/-- The n little-endian bytes of x, least significant first. -/
def bytesOfLE : Nat → Nat → List Nat
  | 0, _ => []
  | n + 1, x => x % 256 :: bytesOfLE n (x / 256)

/-- usize subtraction with the wrapping semantics of a release build. -/
def usize_sub (a b : Nat) : Nat := (U64 + a - b) % U64

/-- A byte oracle backed by a concrete byte list (0 beyond its end). -/
def memOfBytes (bs : List Nat) : Nat → Nat := fun a => bs.getD a 0

/-- A UTF-8 continuation byte, 0x80..0xBF. -/
def utf8Cont (b : Nat) : Bool := 128 ≤ b && b ≤ 191

/-- Whether a byte sequence is valid UTF-8, as core::str::from_utf8
decides it (RFC 3629: no overlong forms, no surrogates, max U+10FFFF).
The code unwraps that check on the RSDP oemid and on table signatures. -/
def utf8Valid : List Nat → Bool
  | [] => true
  | b :: rest =>
    if b ≤ 127 then utf8Valid rest
    else if 194 ≤ b && b ≤ 223 then
      match rest with
      | c1 :: rest2 => utf8Cont c1 && utf8Valid rest2
      | [] => false
    else if b = 224 then
      match rest with
      | c1 :: c2 :: rest2 => (160 ≤ c1 && c1 ≤ 191) && utf8Cont c2 && utf8Valid rest2
      | _ => false
    else if 225 ≤ b && b ≤ 236 then
      match rest with
      | c1 :: c2 :: rest2 => utf8Cont c1 && utf8Cont c2 && utf8Valid rest2
      | _ => false
    else if b = 237 then
      match rest with
      | c1 :: c2 :: rest2 => (128 ≤ c1 && c1 ≤ 159) && utf8Cont c2 && utf8Valid rest2
      | _ => false
    else if 238 ≤ b && b ≤ 239 then
      match rest with
      | c1 :: c2 :: rest2 => utf8Cont c1 && utf8Cont c2 && utf8Valid rest2
      | _ => false
    else if b = 240 then
      match rest with
      | c1 :: c2 :: c3 :: rest2 =>
        (144 ≤ c1 && c1 ≤ 191) && utf8Cont c2 && utf8Cont c3 && utf8Valid rest2
      | _ => false
    else if 241 ≤ b && b ≤ 243 then
      match rest with
      | c1 :: c2 :: c3 :: rest2 => utf8Cont c1 && utf8Cont c2 && utf8Cont c3 && utf8Valid rest2
      | _ => false
    else if b = 244 then
      match rest with
      | c1 :: c2 :: c3 :: rest2 =>
        (128 ≤ c1 && c1 ≤ 143) && utf8Cont c2 && utf8Cont c3 && utf8Valid rest2
      | _ => false
    else false

/-! EFI status codes from src/efi/status.rs.  Error codes carry the high
bit of a 64-bit usize. -/

def EFI_SUCCESS : Nat := 0

def ERROR_CODE_MASK : Nat := 9223372036854775808

def EFI_INVALID_PARAMETER : Nat := 2 + ERROR_CODE_MASK

def EFI_BUFFER_TOO_SMALL : Nat := 5 + ERROR_CODE_MASK

/-! The system-table handle, src/efi.rs.  The global EFI_SYSTEM_TABLE is
an AtomicPtr, modelled as Option Nat (none = null).  The function named
initialize_system_table in the source reads the pointed-to header's
signature, asserts it, and compare-exchanges the global from null; the
Result of the compare-exchange is unwrapped, so a failed exchange is an
abort. -/

def EFI_SYSTEM_TABLE_SIGNATURE : Nat := 0x5453595320494249

inductive InitRes
  | ok
  | panicked
deriving DecidableEq, Repr

/-- initialize_system_table of src/efi.rs, lines 31-48.  sig is the
signature read from the passed pointer's header; st the global handle
before the call.  Returns the global after the call and whether the call
aborted (failed assert, or unwrap of a failed compare-exchange). -/
def init_system_table (sig ptr : Nat) (st : Option Nat) : Option Nat × InitRes :=
  if sig = EFI_SYSTEM_TABLE_SIGNATURE then
    match st with
    | none => (some ptr, InitRes.ok)
    | some p => (some p, InitRes.panicked)
  else (st, InitRes.panicked)

/-! Memory-map acquisition, src/efi/malloc.rs. -/

def MEMORY_MAP_BUFFER_SIZE : Nat := 8192

def MAX_MEMORY_MAP_ENTRIES : Nat := 1000

def EFI_PAGE_SIZE : Nat := 4096

/-- EfiMemoryDescriptor (repr C: the u32 mem_type is followed by 4 bytes
of padding, the u64 fields then sit at offsets 8, 16, 24, 32).
mem_type carries the raw u32 the firmware wrote. -/
structure MemDesc where
  mem_type : Nat
  phys_start : Nat
  virt_start : Nat
  number_pages : Nat
  attr_mask : Nat
deriving DecidableEq, Repr

/-- The read_unaligned of one EfiMemoryDescriptor at byte offset off of
the firmware-filled buffer. -/
def decodeMemDesc (buf : Nat → Nat) (off : Nat) : MemDesc :=
  ⟨readU32 buf off, readU64 buf (off + 8), readU64 buf (off + 16),
   readU64 buf (off + 24), readU64 buf (off + 32)⟩

/-- One firmware response to the GetMemoryMap boot service: the status
code, the values written through the size/key/descriptor-size/version
out-pointers, and the bytes written into the caller's buffer. -/
structure FwResp where
  status : Nat
  memory_map_size : Nat
  map_key : Nat
  descriptor_size : Nat
  descriptor_version : Nat
  buf : Nat → Nat

inductive GmmRes
  | earlyZero
  | panicked
  | returned (map_key : Nat) (pool : List (Option MemDesc))
deriving DecidableEq, Repr

/-- Observable outcome of EfiMemoryManager::get_memory_map: how many
GetMemoryMap firmware calls were issued, and the result. -/
structure GmmOut where
  calls : Nat
  res : GmmRes
deriving DecidableEq, Repr

/-- The offsets (0..memory_map_size).step_by(descriptor_size) visits,
for a non-zero step. -/
def decodeOffsets (sz d : Nat) : List Nat :=
  (List.range ((sz + d - 1) / d)).map (fun i => i * d)

inductive DecodeRes
  | ok (entries : List MemDesc)
  | panicked
deriving DecidableEq, Repr

/-- The descriptor-decoding loop of get_memory_map (malloc.rs lines
112-120).  Aborts when step_by is handed a zero step, when
memory_map.get(offset..) is None (offset past the 8 KiB buffer), or when
the enumeration index walks past the 1000-slot memory pool. -/
def decodeEntries (buf : Nat → Nat) (sz d : Nat) : DecodeRes :=
  if d = 0 then DecodeRes.panicked
  else
    let offs := decodeOffsets sz d
    if MAX_MEMORY_MAP_ENTRIES < offs.length then DecodeRes.panicked
    else if offs.any (fun o => MEMORY_MAP_BUFFER_SIZE < o) then DecodeRes.panicked
    else DecodeRes.ok (offs.map (decodeMemDesc buf))

/-- Writing the decoded entries into the front of the 1000-slot memory
pool; slots past the decoded count keep their previous contents. -/
def writePool (pool : List (Option MemDesc)) (entries : List MemDesc) :
    List (Option MemDesc) :=
  entries.map some ++ pool.drop entries.length

/-- EfiMemoryManager::get_memory_map, src/efi/malloc.rs lines 58-123.
pool is the manager's memory pool before the call; sysTable the global
handle (none = null, in which case the function returns key 0 without
calling firmware); fw maps the index of each GetMemoryMap invocation to
the firmware's response.  The source issues a single call and then
matches on its status; in the EFI_BUFFER_TOO_SMALL arm it prints a retry
message and re-tests the same unchanged status against EFI_SUCCESS,
which the translation keeps verbatim. -/
def get_memory_map (pool : List (Option MemDesc)) (sysTable : Option Unit)
    (fw : Nat → FwResp) : GmmOut :=
  match sysTable with
  | none => ⟨0, GmmRes.earlyZero⟩
  | some _ =>
    let r := fw 0
    if r.status = EFI_BUFFER_TOO_SMALL then
      if r.status = EFI_SUCCESS then
        match decodeEntries r.buf r.memory_map_size r.descriptor_size with
        | DecodeRes.ok entries => ⟨1, GmmRes.returned r.map_key (writePool pool entries)⟩
        | DecodeRes.panicked => ⟨1, GmmRes.panicked⟩
      else ⟨1, GmmRes.panicked⟩
    else if r.status = EFI_INVALID_PARAMETER then ⟨1, GmmRes.panicked⟩
    else if r.status = EFI_SUCCESS then
      match decodeEntries r.buf r.memory_map_size r.descriptor_size with
      | DecodeRes.ok entries => ⟨1, GmmRes.returned r.map_key (writePool pool entries)⟩
      | DecodeRes.panicked => ⟨1, GmmRes.panicked⟩
    else ⟨1, GmmRes.panicked⟩

/-- The six EfiMemoryType discriminants free_mem_after_exit_bs sums
over: LoaderCode 1, LoaderData 2, BootServicesCode 3, BootServicesData
4, ConventionalMemory 7, PersistentMemory 14. -/
def isReclaimable (t : Nat) : Bool :=
  t = 3 || t = 4 || t = 7 || t = 14 || t = 1 || t = 2

/-- EfiMemoryManager::free_mem_after_exit_bs, src/efi/malloc.rs lines
126-147: folds over the pool, adding number_pages * EFI_PAGE_SIZE in
wrapping u64 arithmetic for the reclaimable kinds. -/
def free_mem_after_exit_bs (pool : List (Option MemDesc)) : Nat :=
  pool.foldl
    (fun acc e =>
      match e with
      | some entry =>
        if isReclaimable entry.mem_type then
          (acc + entry.number_pages * EFI_PAGE_SIZE % U64) % U64
        else acc
      | none => acc)
    0

/-- The mathematical (unbounded) sum the claim describes: page_count *
4096 over exactly the reclaimable descriptors. -/
def reclaimSum (pool : List (Option MemDesc)) : Nat :=
  (pool.map
    (fun e =>
      match e with
      | some entry =>
        if isReclaimable entry.mem_type then entry.number_pages * EFI_PAGE_SIZE else 0
      | none => 0)).sum

/-! ACPI system description tables, src/efi/acpi.rs and src/efi/acpi/.
Fixed byte arrays ([u8; 4], [u8; 6], [u8; 8]) are packed into one Nat
little-endian, matching how they sit in memory; equality of the packed
value is equality of the byte array. -/

/-- DescriptionHeader (repr C, packed; 36 bytes): signature at 0, length
at 4, revision 8, checksum 9, oemid 10..15, oem_table_id 16..23,
oem_revision 24, creator_id 28, creator_revision 32. -/
structure DescriptionHeader where
  signature : Nat
  length : Nat
  revision : Nat
  checksum : Nat
  oemid : Nat
  oem_table_id : Nat
  oem_revision : Nat
  creator_id : Nat
  creator_revision : Nat
deriving DecidableEq, Repr

def DESCRIPTION_HEADER_SIZE : Nat := 36

/-- DescriptionHeader::from_addr: the unaligned read of a header. -/
def DescriptionHeader.from_addr (mem : Nat → Nat) (addr : Nat) : DescriptionHeader :=
  ⟨readU32 mem addr, readU32 mem (addr + 4), readByte mem (addr + 8),
   readByte mem (addr + 9), readLE mem (addr + 10) 6, readU64 mem (addr + 16),
   readU32 mem (addr + 24), readU32 mem (addr + 28), readU32 mem (addr + 32)⟩

/-- The bytes XSDT, packed little-endian. -/
def XSDT_SIGNATURE : Nat := 0x54445358

/-- The bytes RSDT, packed little-endian. -/
def RSDT_SIGNATURE : Nat := 0x54445352

/-- The bytes FACP, packed little-endian. -/
def FACP_SIGNATURE : Nat := 0x50434146

/-- The bytes APIC, packed little-endian. -/
def APIC_SIGNATURE : Nat := 0x43495041

/-- The bytes of "RSD PTR " (trailing blank included), packed
little-endian. -/
def RSD_PTR_SIGNATURE : Nat := 0x2052545020445352

/-- The entry view an XSDT carries: base address of the pointer list and
how many entries it believes the list holds. -/
structure XsdtEntries where
  addr : Nat
  nentries : Nat
deriving DecidableEq, Repr

structure XSDT where
  header : DescriptionHeader
  entries : XsdtEntries
deriving DecidableEq, Repr

/-- XSDT::from_header, src/efi/acpi/xsdt.rs lines 71-93: checks the
signature, then counts (length - header size) / size_of::<u64>() entries
starting right after the header. -/
def XSDT.from_header (addr : Nat) (header : DescriptionHeader) : Option XSDT :=
  if header.signature = XSDT_SIGNATURE then
    some ⟨header, ⟨addr + DESCRIPTION_HEADER_SIZE,
                   usize_sub header.length DESCRIPTION_HEADER_SIZE / 8⟩⟩
  else none

/-- Collecting every item the XSDT EntriesIterator yields: nentries u64
reads at stride 8 from the base address. -/
def xsdtEntriesList (mem : Nat → Nat) (e : XsdtEntries) : List Nat :=
  (List.range e.nentries).map (fun i => readU64 mem (e.addr + 8 * i))

structure RsdtEntries where
  addr : Nat
  nentries : Nat
deriving DecidableEq, Repr

structure RSDT where
  header : DescriptionHeader
  entries : RsdtEntries
deriving DecidableEq, Repr

/-- RSDT::from_header, src/efi/acpi/rsdt.rs lines 74-96.  The source
divides by size_of::<u64>() = 8 here, although the RSDT entry type (and
its iterator's stride) is the 4-byte u32. -/
def RSDT.from_header (addr : Nat) (header : DescriptionHeader) : Option RSDT :=
  if header.signature = RSDT_SIGNATURE then
    some ⟨header, ⟨addr + DESCRIPTION_HEADER_SIZE,
                   usize_sub header.length DESCRIPTION_HEADER_SIZE / 8⟩⟩
  else none

/-- Collecting every item the RSDT EntriesIterator yields: nentries u32
reads at stride 4 from the base address. -/
def rsdtEntriesList (mem : Nat → Nat) (e : RsdtEntries) : List Nat :=
  (List.range e.nentries).map (fun i => readU32 mem (e.addr + 4 * i))

inductive WalkRes
  | ok
  | panicked
  | fuelOut
deriving DecidableEq, Repr

/-- read_acpi_table, src/efi/acpi.rs lines 207-241.  Reads the header at
addr, unwraps str::from_utf8 of the signature (abort on invalid UTF-8),
and dispatches: XSDT recurses into every entry of the entry view; FACP is
recognized and skipped; every other signature reaches the fatal
unimplemented arm.  Recursion is metered by fuel; an aborted child aborts
the whole walk. -/
def read_acpi_table (mem : Nat → Nat) : Nat → Nat → WalkRes
  | 0, _ => WalkRes.fuelOut
  | fuel + 1, addr =>
    let header := DescriptionHeader.from_addr mem addr
    if utf8Valid (bytesOfLE 4 header.signature) = false then WalkRes.panicked
    else if header.signature = XSDT_SIGNATURE then
      match XSDT.from_header addr header with
      | some xsdt =>
        (xsdtEntriesList mem xsdt.entries).foldl
          (fun acc a =>
            match acc with
            | WalkRes.ok => read_acpi_table mem fuel a
            | r => r)
          WalkRes.ok
      | none => WalkRes.ok
    else if header.signature = FACP_SIGNATURE then WalkRes.ok
    else WalkRes.panicked

/-- RSDP (repr C, packed; 36 bytes): signature 0..7, checksum 8, oemid
9..14, revision 15, rsdt_addr 16, length 20, xsdt_addr 24, ext_checksum
32, reserved 33..35. -/
structure RSDP where
  signature : Nat
  checksum : Nat
  oemid : Nat
  revision : Nat
  rsdt_addr : Nat
  length : Nat
  xsdt_addr : Nat
  ext_checksum : Nat
  reserved : Nat
deriving DecidableEq, Repr

/-- The unaligned read of an RSDP at addr. -/
def decodeRSDP (mem : Nat → Nat) (addr : Nat) : RSDP :=
  ⟨readLE mem addr 8, readByte mem (addr + 8), readLE mem (addr + 9) 6,
   readByte mem (addr + 15), readU32 mem (addr + 16), readU32 mem (addr + 20),
   readU64 mem (addr + 24), readByte mem (addr + 32), readLE mem (addr + 33) 3⟩

/-- The validation phase of read_rsdp, src/efi/acpi.rs lines 42-56:
reads the RSDP, unwraps str::from_utf8 of the signature and asserts it
equals "RSD PTR " (a byte differing from that constant aborts on one of
the two), then unwraps str::from_utf8 of the oemid (abort on invalid
UTF-8).  The subsequent recursive walk of xsdt_addr and rsdt_addr is
read_acpi_table above; none models the abort paths. -/
def read_rsdp_validate (mem : Nat → Nat) (addr : Nat) : Option RSDP :=
  let rsdp := decodeRSDP mem addr
  if rsdp.signature = RSD_PTR_SIGNATURE then
    if utf8Valid (bytesOfLE 6 rsdp.oemid) then some rsdp else none
  else none

/-- A 36-byte oracle laying out the fields of an RSDP record at address
0, little-endian, exactly as repr(C, packed) serializes them. -/
def memOfRSDP (v : RSDP) : Nat → Nat := fun a =>
  if a < 8 then v.signature / 256 ^ a % 256
  else if a = 8 then v.checksum
  else if a < 15 then v.oemid / 256 ^ (a - 9) % 256
  else if a = 15 then v.revision
  else if a < 20 then v.rsdt_addr / 256 ^ (a - 16) % 256
  else if a < 24 then v.length / 256 ^ (a - 20) % 256
  else if a < 32 then v.xsdt_addr / 256 ^ (a - 24) % 256
  else if a = 32 then v.ext_checksum
  else if a < 36 then v.reserved / 256 ^ (a - 33) % 256
  else 0

/-! The configuration-table directory scan, src/efi.rs lines 200-241. -/

/-- Outcome of read_rsdp: the decoded RSDP when validation and the walk
of both root tables return; panicked models the abort paths, and a
panic never returns to the caller (the panic handler loops forever). -/
inductive RsdpRes
  | ok (r : RSDP)
  | panicked
  | fuelOut
deriving DecidableEq, Repr

/-- read_rsdp, src/efi/acpi.rs lines 42-56, in full: the validation
phase (read_rsdp_validate above), then read_acpi_table on xsdt_addr and
then on rsdt_addr, then the decoded RSDP is returned.  An abort in any
phase aborts read_rsdp itself. -/
def read_rsdp (mem : Nat → Nat) (fuel : Nat) (addr : Nat) : RsdpRes :=
  match read_rsdp_validate mem addr with
  | none => RsdpRes.panicked
  | some rsdp =>
    match read_acpi_table mem fuel rsdp.xsdt_addr with
    | WalkRes.panicked => RsdpRes.panicked
    | WalkRes.fuelOut => RsdpRes.fuelOut
    | WalkRes.ok =>
      match read_acpi_table mem fuel rsdp.rsdt_addr with
      | WalkRes.panicked => RsdpRes.panicked
      | WalkRes.fuelOut => RsdpRes.fuelOut
      | WalkRes.ok => RsdpRes.ok rsdp

/-- GUID of the ACPI 2.0 vendor table, src/efi/acpi.rs lines 6-8. -/
def EFI_ACPI_20_TABLE_GUID : Nat := 0x81883cc7800022bc11d3e4f18868e871

structure CfgEntry where
  vendor_guid : Nat
  vendor_table : Nat
deriving DecidableEq, Repr

/-- Observable outcome of read_config_table: the vendor_table addresses
handed to read_rsdp in loop order, how many directory entries were read
from memory, and whether the loop ran to completion (panicked = an
in-loop read_rsdp call aborted, so the entries after it were never
read; fuelOut = a walk exceeded the recursion budget). -/
structure CfgOut where
  invoked : List Nat
  reads : Nat
  res : WalkRes
deriving DecidableEq, Repr

/-- The entry loop of read_config_table: each iteration reads one
entry; an entry carrying the ACPI 2.0 GUID has its vendor_table handed
to read_rsdp, and the loop continues past it only when that call
returns. -/
def cfgLoop (mem : Nat → Nat) (fuel : Nat) : List CfgEntry → CfgOut
  | [] => ⟨[], 0, WalkRes.ok⟩
  | e :: rest =>
    if e.vendor_guid = EFI_ACPI_20_TABLE_GUID then
      match read_rsdp mem fuel e.vendor_table with
      | RsdpRes.ok _ =>
        let out := cfgLoop mem fuel rest
        ⟨e.vendor_table :: out.invoked, out.reads + 1, out.res⟩
      | RsdpRes.panicked => ⟨[e.vendor_table], 1, WalkRes.panicked⟩
      | RsdpRes.fuelOut => ⟨[e.vendor_table], 1, WalkRes.fuelOut⟩
    else
      let out := cfgLoop mem fuel rest
      ⟨out.invoked, out.reads + 1, out.res⟩

/-- read_config_table, src/efi.rs lines 200-241.  A null system-table
handle returns before touching the directory; otherwise the
ntable_entries entries are scanned in order until the loop ends or an
in-loop read_rsdp aborts. -/
def read_config_table (mem : Nat → Nat) (fuel : Nat)
    (sysTable : Option (List CfgEntry)) : CfgOut :=
  match sysTable with
  | none => ⟨[], 0, WalkRes.ok⟩
  | some entries => cfgLoop mem fuel entries

/-! The multi-APIC description table and its interrupt-controller
records, src/efi/acpi/madt.rs and src/efi/acpi/madt/. -/

/-- The two-byte prefix of every interrupt-controller structure. -/
structure IntCtrlHeader where
  ctrl_type : Nat
  length : Nat
deriving DecidableEq, Repr

/-- ProcLocalApic (8 bytes, packed): uid at 2, apic id at 3, u32 flags
at 4. -/
structure ProcLocalApic where
  header : IntCtrlHeader
  acpi_processor_uid : Nat
  apic_id : Nat
  flags : Nat
deriving DecidableEq, Repr

/-- InOutApic (12 bytes, packed): id at 2, reserved at 3, u32 address at
4, u32 global system interrupt base at 8. -/
structure InOutApic where
  header : IntCtrlHeader
  io_apic_id : Nat
  reserved : Nat
  io_apic_addr : Nat
  global_system_int_base : Nat
deriving DecidableEq, Repr

/-- IntSrcOverride (10 bytes, packed): bus at 2, source at 3, u32 global
system interrupt at 4, u16 flags at 8. -/
structure IntSrcOverride where
  header : IntCtrlHeader
  bus : Nat
  source : Nat
  global_sys_int : Nat
  flags : Nat
deriving DecidableEq, Repr

/-- LocalApicNmi (6 bytes, packed): uid at 2, u16 flags at 3, LINTn at
5. -/
structure LocalApicNmi where
  header : IntCtrlHeader
  acpi_proc_uid : Nat
  flags : Nat
  local_apic_lintn : Nat
deriving DecidableEq, Repr

def decodeIntCtrlHeader (mem : Nat → Nat) (a : Nat) : IntCtrlHeader :=
  ⟨readByte mem a, readByte mem (a + 1)⟩

def ProcLocalApic.from_addr (mem : Nat → Nat) (a : Nat) : ProcLocalApic :=
  ⟨decodeIntCtrlHeader mem a, readByte mem (a + 2), readByte mem (a + 3),
   readU32 mem (a + 4)⟩

def InOutApic.from_addr (mem : Nat → Nat) (a : Nat) : InOutApic :=
  ⟨decodeIntCtrlHeader mem a, readByte mem (a + 2), readByte mem (a + 3),
   readU32 mem (a + 4), readU32 mem (a + 8)⟩

def IntSrcOverride.from_addr (mem : Nat → Nat) (a : Nat) : IntSrcOverride :=
  ⟨decodeIntCtrlHeader mem a, readByte mem (a + 2), readByte mem (a + 3),
   readU32 mem (a + 4), readU16 mem (a + 8)⟩

def LocalApicNmi.from_addr (mem : Nat → Nat) (a : Nat) : LocalApicNmi :=
  ⟨decodeIntCtrlHeader mem a, readByte mem (a + 2), readU16 mem (a + 3),
   readByte mem (a + 5)⟩

/-- The closed tagged union of interrupt-controller records
(src/efi/acpi/madt/int_ctrl.rs). -/
inductive IntCtrl
  | procLocalApic (r : ProcLocalApic)
  | inOutApic (r : InOutApic)
  | intSrcOverride (r : IntSrcOverride)
  | nmiSrc
  | localApicNmi (r : LocalApicNmi)
  | unknown (t : Nat)
deriving DecidableEq, Repr

/-- IntCtrl::from_type, src/efi/acpi/madt/int_ctrl.rs lines 30-51:
tags 0-4 decode their fixed layout at addr, anything else is Unknown. -/
def IntCtrl.from_type (mem : Nat → Nat) (addr : Nat) (ctrl_type : Nat) : IntCtrl :=
  if ctrl_type = 0 then IntCtrl.procLocalApic (ProcLocalApic.from_addr mem addr)
  else if ctrl_type = 1 then IntCtrl.inOutApic (InOutApic.from_addr mem addr)
  else if ctrl_type = 2 then IntCtrl.intSrcOverride (IntSrcOverride.from_addr mem addr)
  else if ctrl_type = 3 then IntCtrl.nmiSrc
  else if ctrl_type = 4 then IntCtrl.localApicNmi (LocalApicNmi.from_addr mem addr)
  else IntCtrl.unknown ctrl_type

def MAX_INT_CTRLS : Nat := 200

/-- Observables of the record-scanning loop of MADT::from_header: the
records each iteration decoded via IntCtrl::from_type (the source drops
each one after printing its metadata), the cursor when the loop stopped,
and whether it stopped by reaching the end condition (false = fuel ran
out, the loop was still running). -/
structure MadtLoopOut where
  trace : List IntCtrl
  cursor : Nat
  completed : Bool
deriving DecidableEq, Repr

/-- The while loop of MADT::from_header (madt.rs lines 56-69): while the
cursor is below the table end, read the two-byte record prefix, decode
the record for its tag, and advance the cursor by the record's declared
length. -/
def madtLoop (mem : Nat → Nat) (endAddr : Nat) : Nat → Nat → MadtLoopOut
  | fuel, cursor =>
    if cursor < endAddr then
      match fuel with
      | 0 => ⟨[], cursor, false⟩
      | fuel' + 1 =>
        let meta := decodeIntCtrlHeader mem cursor
        let r := IntCtrl.from_type mem cursor meta.ctrl_type
        let out := madtLoop mem endAddr fuel' (cursor + meta.length)
        ⟨r :: out.trace, out.cursor, out.completed⟩
    else ⟨[], cursor, true⟩

/-- What MADT::from_header produces: the decoded local-interrupt-
controller address and flags, the int_ctrls array of the returned MADT
value, and the loop observables. -/
structure MADTout where
  lic_addr : Nat
  flags : Nat
  int_ctrls : List (Option IntCtrl)
  loop : MadtLoopOut
deriving DecidableEq, Repr

/-- MADT::from_header, src/efi/acpi/madt.rs lines 37-79: reads lic_addr
and flags right after the 36-byte header, runs the record loop from
addr + 36 + 8 to addr + header.length, then constructs the MADT with
int_ctrls = [None; MAX_INT_CTRLS] — the records decoded by the loop are
not stored. -/
def MADT.from_header (mem : Nat → Nat) (addr : Nat) (header : DescriptionHeader)
    (fuel : Nat) : MADTout :=
  let after_header_addr := addr + DESCRIPTION_HEADER_SIZE
  let lic_addr := readU32 mem after_header_addr
  let flags := readU32 mem (after_header_addr + 4)
  let madt_end_addr := addr + header.length
  let out := madtLoop mem madt_end_addr fuel (after_header_addr + 2 * 4)
  ⟨lic_addr, flags, List.replicate MAX_INT_CTRLS none, out⟩

/-- The byte range [c, e) is an exact sequence of interrupt-controller
records: either empty, or it starts with a record whose declared length
is positive and fits, followed by such a sequence.  This is what it
means for a multi-APIC table body to consist of records. -/
inductive Tiles (mem : Nat → Nat) : Nat → Nat → Prop
  | done (c : Nat) : Tiles mem c c
  | cons (c e : Nat) (hlt : c < e) (hpos : 0 < readByte mem (c + 1))
      (hle : c + readByte mem (c + 1) ≤ e)
      (htail : Tiles mem (c + readByte mem (c + 1)) e) : Tiles mem c e

/-- The cursor positions the record loop reaches when started at start
with table end endAddr. -/
inductive Reaches (mem : Nat → Nat) (start endAddr : Nat) : Nat → Prop
  | refl : Reaches mem start endAddr start
  | step (c : Nat) : Reaches mem start endAddr c → c < endAddr →
      Reaches mem start endAddr (c + readByte mem (c + 1))

/-! Concrete fixtures used by the theorems below. -/

/-- A 64-byte multi-APIC table: 36 header bytes (read separately), then
lic_addr 0x12345678, flags 1, one ProcessorLocalApic record (type 0,
length 8, uid 42, apic id 5, flags 1) and one IoApic record (type 1,
length 12, id 9, address 0xFEC00000, global system interrupt base 16). -/
def madtBytes : List Nat :=
  List.replicate 36 0 ++ [0x78, 0x56, 0x34, 0x12] ++ [1, 0, 0, 0]
    ++ [0, 8, 42, 5, 1, 0, 0, 0]
    ++ [1, 12, 9, 0, 0, 0, 0xC0, 0xFE, 16, 0, 0, 0]

def madtMem : Nat → Nat := memOfBytes madtBytes

/-- The header of the fixture table: signature APIC, length 64. -/
def madtHeader : DescriptionHeader := ⟨APIC_SIGNATURE, 64, 0, 0, 0, 0, 0, 0, 0⟩

/-- Memory whose first four bytes spell APIC. -/
def apicTableMem : Nat → Nat := memOfBytes [0x41, 0x50, 0x49, 0x43]

/-- A firmware that answers every GetMemoryMap call with
BUFFER_TOO_SMALL and a required size of 16384 bytes. -/
def fwBts : Nat → FwResp := fun _ => ⟨EFI_BUFFER_TOO_SMALL, 16384, 0, 48, 1, fun _ => 0⟩

/-- A 36-byte sequence whose signature field is exactly "RSD PTR " but
whose oemid bytes (six 0xFF) are not valid UTF-8. -/
def rsdpBadOemBytes : List Nat :=
  [0x52, 0x53, 0x44, 0x20, 0x50, 0x54, 0x52, 0x20, 0,
   0xFF, 0xFF, 0xFF, 0xFF, 0xFF, 0xFF, 2,
   0, 0, 0, 0, 36, 0, 0, 0, 0, 0, 0, 0, 0, 0, 0, 0, 0, 0, 0, 0]

/-- An RSDP value with signature "RSD PTR ", ASCII oemid "ABCDEF",
revision 2 and in-range addresses, for the round-trip witness. -/
def rsdpGood : RSDP :=
  ⟨RSD_PTR_SIGNATURE, 0, 0x464544434241, 2, 0x1000, 36, 0x2000, 0, 0⟩

/-- 36 bytes of a valid RSDP: signature "RSD PTR ", ASCII oemid
"ABCDEF", revision 2, rsdt_addr and xsdt_addr both 200, length 36. -/
def rsdpBytes200 : List Nat :=
  [0x52, 0x53, 0x44, 0x20, 0x50, 0x54, 0x52, 0x20, 0,
   0x41, 0x42, 0x43, 0x44, 0x45, 0x46, 2,
   200, 0, 0, 0, 36, 0, 0, 0, 200, 0, 0, 0, 0, 0, 0, 0, 0, 0, 0, 0]

/-- Memory holding that RSDP at address 100 and again at address 140,
and a FACP table header at 200: read_rsdp at 100 or at 140 passes
validation and both of its walks return. -/
def cfgMem : Nat → Nat :=
  memOfBytes (List.replicate 100 0 ++ rsdpBytes200 ++ List.replicate 4 0
    ++ rsdpBytes200 ++ List.replicate 24 0 ++ [0x46, 0x41, 0x43, 0x50])

/-- All-zero memory: every record the cursor meets declares length 0. -/
def zeroMem : Nat → Nat := fun _ => 0

/-- All-one memory: every record the cursor meets declares length 1. -/
def oneMem : Nat → Nat := fun _ => 1

/-! Theorems.  Each claim of the specification is settled by exactly one
theorem below; helper lemmas carry no claim of their own. -/

/-- C5 counterexample: with the handle already installed (value 100), a
second call whose signature check passes leaves the stored value but
aborts — the unwrap of the failed compare-exchange — refuting the
claimed no-op completion. -/
theorem init_second_call_is_not_noop :
    init_system_table EFI_SYSTEM_TABLE_SIGNATURE 200 (some 100)
      = (some 100, InitRes.panicked)
  ∧ InitRes.panicked ≠ InitRes.ok := by
  exact ⟨rfl, by decide⟩

/-- C5 (amended): a second initialize_system_table call with a passing
signature check, while the handle is already installed, leaves the
previously installed value unchanged but aborts (the Err of the
compare-exchange is unwrapped) rather than completing as a no-op. -/
theorem init_second_call_panics_preserving_value (sig q p : Nat)
    (h : sig = EFI_SYSTEM_TABLE_SIGNATURE) :
    init_system_table sig q (some p) = (some p, InitRes.panicked) := by
  subst h
  simp [init_system_table]

/-- Witness for the amended C5 statement at a concrete installed
handle. -/
theorem init_second_call_panics_preserving_value_witness :
    init_system_table EFI_SYSTEM_TABLE_SIGNATURE 7 (some 3) = (some 3, InitRes.panicked) :=
  init_second_call_panics_preserving_value EFI_SYSTEM_TABLE_SIGNATURE 7 3 rfl

/-- C9 counterexample: a directory holding two entries that both carry
the ACPI 2.0 GUID, with vendor tables 100 and 140, each a valid root
pointer whose walk returns.  The code hands BOTH addresses to
read_rsdp, not only the first entry's. -/
theorem read_config_table_not_first_match_only :
    (read_config_table cfgMem 1
        (some [⟨EFI_ACPI_20_TABLE_GUID, 100⟩, ⟨EFI_ACPI_20_TABLE_GUID, 140⟩])).invoked
      = [100, 140]
  ∧ ([100, 140] : List Nat) ≠ [100] := by
  exact ⟨by decide, by decide⟩

theorem cfgLoop_no_match (mem : Nat → Nat) (fuel : Nat) :
    ∀ l : List CfgEntry, (∀ e ∈ l, e.vendor_guid ≠ EFI_ACPI_20_TABLE_GUID) →
      cfgLoop mem fuel l = ⟨[], l.length, WalkRes.ok⟩ := by
  intro l
  induction l with
  | nil => intro _; rfl
  | cons a rest ih =>
    intro h
    have ha : a.vendor_guid ≠ EFI_ACPI_20_TABLE_GUID := h a (by simp)
    have hr := ih (fun e he => h e (by simp [he]))
    simp [cfgLoop, ha, hr]

theorem cfgLoop_head_first_match (mem : Nat → Nat) (fuel : Nat) :
    ∀ (l : List CfgEntry) (e : CfgEntry) (rest : List CfgEntry),
      l.filter (fun x => x.vendor_guid == EFI_ACPI_20_TABLE_GUID) = e :: rest →
      (cfgLoop mem fuel l).invoked.head? = some e.vendor_table := by
  intro l
  induction l with
  | nil => intro e rest h; simp at h
  | cons a l' ih =>
    intro e rest h
    by_cases ha : a.vendor_guid = EFI_ACPI_20_TABLE_GUID
    · rw [List.filter_cons_of_pos (by simpa using ha)] at h
      injection h with h1 h2
      subst h1
      cases hr : read_rsdp mem fuel a.vendor_table <;> simp [cfgLoop, ha, hr]
    · rw [List.filter_cons_of_neg (by simpa using ha)] at h
      simpa [cfgLoop, ha] using ih e rest h

theorem cfgLoop_all_matches_ok (mem : Nat → Nat) (fuel : Nat) :
    ∀ l : List CfgEntry,
      (∀ e ∈ l, e.vendor_guid = EFI_ACPI_20_TABLE_GUID →
        ∃ r, read_rsdp mem fuel e.vendor_table = RsdpRes.ok r) →
      (cfgLoop mem fuel l).invoked
        = (l.filter (fun x => x.vendor_guid == EFI_ACPI_20_TABLE_GUID)).map
            CfgEntry.vendor_table
      ∧ (cfgLoop mem fuel l).reads = l.length := by
  intro l
  induction l with
  | nil => intro _; exact ⟨rfl, rfl⟩
  | cons a l' ih =>
    intro h
    have hrest := ih (fun e he hm => h e (by simp [he]) hm)
    by_cases ha : a.vendor_guid = EFI_ACPI_20_TABLE_GUID
    · obtain ⟨r, hr⟩ := h a (by simp) ha
      constructor
      · rw [List.filter_cons_of_pos (by simpa using ha)]
        simp [cfgLoop, ha, hr, hrest.1]
      · simp [cfgLoop, ha, hr, hrest.2]
    · constructor
      · rw [List.filter_cons_of_neg (by simpa using ha)]
        simp [cfgLoop, ha, hrest.1]
      · simp [cfgLoop, ha, hrest.2]

theorem cfgLoop_first_match_abort (mem : Nat → Nat) (fuel : Nat) :
    ∀ (l : List CfgEntry) (e : CfgEntry) (rest : List CfgEntry),
      l.filter (fun x => x.vendor_guid == EFI_ACPI_20_TABLE_GUID) = e :: rest →
      read_rsdp mem fuel e.vendor_table = RsdpRes.panicked →
      (cfgLoop mem fuel l).invoked = [e.vendor_table]
      ∧ (cfgLoop mem fuel l).res = WalkRes.panicked := by
  intro l
  induction l with
  | nil => intro e rest h _; simp at h
  | cons a l' ih =>
    intro e rest h habort
    by_cases ha : a.vendor_guid = EFI_ACPI_20_TABLE_GUID
    · rw [List.filter_cons_of_pos (by simpa using ha)] at h
      injection h with h1 h2
      subst h1
      simp [cfgLoop, ha, habort]
    · rw [List.filter_cons_of_neg (by simpa using ha)] at h
      have := ih e rest h habort
      simp [cfgLoop, ha, this.1, this.2]

/-- C9 (amended): read_config_table iterates the directory linearly and
hands the vendor_table address of each entry whose vendor_guid equals
the ACPI-2.0 GUID to read_rsdp, in directory order, continuing past a
match only when that read_rsdp call returns: with an empty firmware
handle it yields nothing and reads no directory entry; with no matching
entry it yields nothing after reading every entry; whenever a match
exists, the first matching entry's address is the first one handed
over; when every matching entry's read_rsdp returns, every matching
entry's address is handed over in order; and when the first matching
entry's read_rsdp aborts, only that address is handed over and the rest
of the directory is never visited. -/
theorem read_config_table_scan_spec (mem : Nat → Nat) (fuel : Nat)
    (entries : List CfgEntry) :
    read_config_table mem fuel none = ⟨[], 0, WalkRes.ok⟩
  ∧ ((∀ e ∈ entries, e.vendor_guid ≠ EFI_ACPI_20_TABLE_GUID) →
      read_config_table mem fuel (some entries) = ⟨[], entries.length, WalkRes.ok⟩)
  ∧ (∀ e rest,
      entries.filter (fun x => x.vendor_guid == EFI_ACPI_20_TABLE_GUID) = e :: rest →
      (read_config_table mem fuel (some entries)).invoked.head? = some e.vendor_table)
  ∧ ((∀ e ∈ entries, e.vendor_guid = EFI_ACPI_20_TABLE_GUID →
        ∃ r, read_rsdp mem fuel e.vendor_table = RsdpRes.ok r) →
      (read_config_table mem fuel (some entries)).invoked
        = (entries.filter (fun x => x.vendor_guid == EFI_ACPI_20_TABLE_GUID)).map
            CfgEntry.vendor_table
      ∧ (read_config_table mem fuel (some entries)).reads = entries.length)
  ∧ (∀ e rest,
      entries.filter (fun x => x.vendor_guid == EFI_ACPI_20_TABLE_GUID) = e :: rest →
      read_rsdp mem fuel e.vendor_table = RsdpRes.panicked →
      (read_config_table mem fuel (some entries)).invoked = [e.vendor_table]
      ∧ (read_config_table mem fuel (some entries)).res = WalkRes.panicked) := by
  refine ⟨rfl, ?_, ?_, ?_, ?_⟩
  · intro h
    exact cfgLoop_no_match mem fuel entries h
  · intro e rest h
    exact cfgLoop_head_first_match mem fuel entries e rest h
  · intro h
    exact cfgLoop_all_matches_ok mem fuel entries h
  · intro e rest h habort
    exact cfgLoop_first_match_abort mem fuel entries e rest h habort

/-- Witness for C9's amended statement: a one-entry directory whose
matching table at 100 is a valid root pointer; its address is handed
over and the whole directory is read. -/
theorem read_config_table_scan_spec_witness :
    (read_config_table cfgMem 1 (some [⟨EFI_ACPI_20_TABLE_GUID, 100⟩])).invoked = [100]
  ∧ (read_config_table cfgMem 1 (some [⟨EFI_ACPI_20_TABLE_GUID, 100⟩])).reads = 1 := by
  have h := (read_config_table_scan_spec cfgMem 1 [⟨EFI_ACPI_20_TABLE_GUID, 100⟩]).2.2.2.1
    (by
      intro e he hm
      have he' : e = ⟨EFI_ACPI_20_TABLE_GUID, 100⟩ := by simpa using he
      subst he'
      exact ⟨⟨0x2052545020445352, 0, 0x464544434241, 2, 200, 36, 200, 0, 0⟩, by decide⟩)
  exact ⟨h.1.trans (by decide), h.2⟩

/-- C3: a table whose header signature reads APIC is not delegated to
the interrupt-controller parser; read_acpi_table sends it into the
fatal unimplemented default arm and aborts. -/
theorem read_acpi_table_apic_is_fatal :
    read_acpi_table apicTableMem 1 0 = WalkRes.panicked
  ∧ WalkRes.panicked ≠ WalkRes.ok := by
  exact ⟨by decide, by decide⟩

/-- C1: a first BUFFER_TOO_SMALL response is already fatal.  Whatever
firmware would answer to further calls, get_memory_map issues exactly
one GetMemoryMap call and aborts: the BUFFER_TOO_SMALL arm re-tests the
unchanged status against EFI_SUCCESS instead of retrying with the
required size the firmware reported. -/
theorem get_memory_map_first_bts_fatal (pool : List (Option MemDesc))
    (fw : Nat → FwResp) (h : (fw 0).status = EFI_BUFFER_TOO_SMALL) :
    get_memory_map pool (some ()) fw = ⟨1, GmmRes.panicked⟩ := by
  have hne : ¬ EFI_BUFFER_TOO_SMALL = EFI_SUCCESS := by decide
  simp [get_memory_map, h, hne]

/-- Witness for C1: the concrete firmware fwBts answers the first call
with BUFFER_TOO_SMALL and required size 16384; the call aborts after a
single firmware invocation. -/
theorem get_memory_map_first_bts_fatal_witness :
    get_memory_map [] (some ()) fwBts = ⟨1, GmmRes.panicked⟩ :=
  get_memory_map_first_bts_fatal [] fwBts rfl

/-- C2: the XSDT view of a length-52 table has (52 - 36) / 8 = 2 entries
and iterating it reads two consecutive u64 addresses right after the
header — but an RSDT of length 40, which carries (40 - 36) / 4 = 1
four-byte entry, gets a view of (40 - 36) / 8 = 0 entries whose
iteration reads nothing: RSDT::from_header divides by the 8-byte
pointer width instead of 4. -/
theorem entry_table_count_rsdt_divergence :
    (∃ x, XSDT.from_header 1000 ⟨XSDT_SIGNATURE, 52, 0, 0, 0, 0, 0, 0, 0⟩ = some x
       ∧ x.entries.nentries = 2 ∧ x.entries.addr = 1036
       ∧ ∀ mem, xsdtEntriesList mem x.entries = [readU64 mem 1036, readU64 mem 1044])
  ∧ (∃ r, RSDT.from_header 1000 ⟨RSDT_SIGNATURE, 40, 0, 0, 0, 0, 0, 0, 0⟩ = some r
       ∧ r.entries.nentries = 0 ∧ ∀ mem, rsdtEntriesList mem r.entries = [])
  ∧ (40 - 36) / 4 = 1 := by
  refine ⟨⟨⟨⟨XSDT_SIGNATURE, 52, 0, 0, 0, 0, 0, 0, 0⟩, ⟨1036, 2⟩⟩, ?_, rfl, rfl, ?_⟩,
          ⟨⟨⟨RSDT_SIGNATURE, 40, 0, 0, 0, 0, 0, 0, 0⟩, ⟨1036, 0⟩⟩, ?_, rfl, ?_⟩, by norm_num⟩
  · decide
  · intro mem
    simp [xsdtEntriesList, List.range_succ]
  · decide
  · intro mem
    simp [rsdtEntriesList]

/-- C4: running MADT::from_header on the fixture table decodes — in
table order, with their field values — the ProcessorLocalApic record and
then the IoApic record, exactly as the claim's scenario lists them; yet
the MADT value it constructs stores none of them: its int_ctrls array is
still entirely None, so the produced record sequence is empty. -/
theorem madt_records_decoded_then_dropped :
    (MADT.from_header madtMem 0 madtHeader 20).loop.trace
      = [IntCtrl.procLocalApic ⟨⟨0, 8⟩, 42, 5, 1⟩,
         IntCtrl.inOutApic ⟨⟨1, 12⟩, 9, 0, 0xFEC00000, 16⟩]
  ∧ (MADT.from_header madtMem 0 madtHeader 20).lic_addr = 0x12345678
  ∧ (MADT.from_header madtMem 0 madtHeader 20).flags = 1
  ∧ (MADT.from_header madtMem 0 madtHeader 20).int_ctrls = List.replicate 200 none
  ∧ (MADT.from_header madtMem 0 madtHeader 20).int_ctrls.all Option.isNone = true := by
  refine ⟨by decide, by decide, by decide, rfl, by decide⟩

theorem free_mem_fold_general (pool : List (Option MemDesc)) :
    ∀ acc : Nat, acc < U64 →
      pool.foldl
        (fun acc e =>
          match e with
          | some entry =>
            if isReclaimable entry.mem_type then
              (acc + entry.number_pages * EFI_PAGE_SIZE % U64) % U64
            else acc
          | none => acc)
        acc = (acc + reclaimSum pool) % U64 := by
  induction pool with
  | nil =>
    intro acc hacc
    have h64 : U64 = 18446744073709551616 := rfl
    rw [h64] at hacc
    simp [reclaimSum, h64]
    omega
  | cons e rest ih =>
    intro acc hacc
    match e with
    | none =>
      simpa [reclaimSum] using ih acc hacc
    | some entry =>
      by_cases hrec : isReclaimable entry.mem_type
      · have hlt : (acc + entry.number_pages * EFI_PAGE_SIZE % U64) % U64 < U64 := by
          have : 0 < U64 := by decide
          exact Nat.mod_lt _ this
        have := ih ((acc + entry.number_pages * EFI_PAGE_SIZE % U64) % U64) hlt
        simp only [List.foldl, hrec, if_true, reclaimSum, List.map, List.sum_cons] at this ⊢
        rw [this]
        have h64 : U64 = 18446744073709551616 := rfl
        rw [h64]
        omega
      · simpa [reclaimSum, hrec] using ih acc hacc

/-- C6: free_mem_after_exit_bs returns (in wrapping u64 arithmetic) the
sum of number_pages * 4096 over exactly the descriptors whose kind is
reclaimable (LoaderCode, LoaderData, BootServicesCode, BootServicesData,
ConventionalMemory, PersistentMemory); every other kind contributes
nothing, the total equals the mathematical sum whenever that sum fits in
a u64, and it is invariant under any permutation of the pool. -/
theorem free_mem_reclaimable_sum (pool pool' : List (Option MemDesc))
    (hperm : pool.Perm pool') :
    free_mem_after_exit_bs pool = reclaimSum pool % U64
  ∧ free_mem_after_exit_bs pool = free_mem_after_exit_bs pool'
  ∧ (reclaimSum pool < U64 → free_mem_after_exit_bs pool = reclaimSum pool) := by
  have h1 : ∀ l : List (Option MemDesc), free_mem_after_exit_bs l = reclaimSum l % U64 := by
    intro l
    have h := free_mem_fold_general l 0 (by decide)
    simpa [free_mem_after_exit_bs] using h
  have hsum : reclaimSum pool = reclaimSum pool' := by
    unfold reclaimSum
    exact List.Perm.sum_eq (hperm.map _)
  refine ⟨h1 pool, ?_, fun hlt => ?_⟩
  · rw [h1 pool, h1 pool', hsum]
  · rw [h1 pool, Nat.mod_eq_of_lt hlt]

/-- Witness for C6 at the spec's own scenario: a ConventionalMemory
descriptor of 10 pages and a ReservedMemoryType descriptor of 5 pages,
in either order, give 10 * 4096 = 40960. -/
theorem free_mem_reclaimable_sum_witness :
    free_mem_after_exit_bs [some ⟨7, 0, 0, 10, 0⟩, some ⟨0, 0, 0, 5, 0⟩]
      = reclaimSum [some ⟨7, 0, 0, 10, 0⟩, some ⟨0, 0, 0, 5, 0⟩] % U64
  ∧ free_mem_after_exit_bs [some ⟨7, 0, 0, 10, 0⟩, some ⟨0, 0, 0, 5, 0⟩]
      = free_mem_after_exit_bs [some ⟨0, 0, 0, 5, 0⟩, some ⟨7, 0, 0, 10, 0⟩]
  ∧ free_mem_after_exit_bs [some ⟨7, 0, 0, 10, 0⟩, some ⟨0, 0, 0, 5, 0⟩] = 40960 := by
  have h := free_mem_reclaimable_sum [some ⟨7, 0, 0, 10, 0⟩, some ⟨0, 0, 0, 5, 0⟩]
    [some ⟨0, 0, 0, 5, 0⟩, some ⟨7, 0, 0, 10, 0⟩] (by decide)
  exact ⟨h.1, h.2.1, by decide⟩

theorem madtLoop_exit (mem : Nat → Nat) (endAddr fuel cursor : Nat)
    (h : ¬ cursor < endAddr) :
    madtLoop mem endAddr fuel cursor = ⟨[], cursor, true⟩ := by
  cases fuel <;> simp [madtLoop, h]

theorem madtLoop_zero (mem : Nat → Nat) (endAddr cursor : Nat)
    (h : cursor < endAddr) :
    madtLoop mem endAddr 0 cursor = ⟨[], cursor, false⟩ := by
  simp [madtLoop, h]

theorem madtLoop_step (mem : Nat → Nat) (endAddr fuel' cursor : Nat)
    (h : cursor < endAddr) :
    madtLoop mem endAddr (fuel' + 1) cursor =
      ⟨IntCtrl.from_type mem cursor (decodeIntCtrlHeader mem cursor).ctrl_type ::
         (madtLoop mem endAddr fuel'
            (cursor + (decodeIntCtrlHeader mem cursor).length)).trace,
       (madtLoop mem endAddr fuel'
          (cursor + (decodeIntCtrlHeader mem cursor).length)).cursor,
       (madtLoop mem endAddr fuel'
          (cursor + (decodeIntCtrlHeader mem cursor).length)).completed⟩ := by
  rw [madtLoop]
  simp [h]

theorem madtLoop_tiles_cursor (mem : Nat → Nat) :
    ∀ {c e : Nat}, Tiles mem c e → ∀ fuel, e - c ≤ fuel →
      (madtLoop mem e fuel c).cursor = e ∧ (madtLoop mem e fuel c).completed = true := by
  intro c e ht
  induction ht with
  | done c =>
    intro fuel _
    rw [madtLoop_exit _ _ _ _ (by omega)]
    exact ⟨rfl, rfl⟩
  | cons c e hlt hpos hle htail ih =>
    intro fuel hf
    match fuel with
    | 0 => omega
    | fuel' + 1 =>
      have hnext : e - (c + readByte mem (c + 1)) ≤ fuel' := by omega
      have h := ih fuel' hnext
      rw [madtLoop_step _ _ _ _ hlt]
      simpa [decodeIntCtrlHeader, readByte] using h

/-- C7: for a multi-APIC table at addr whose declared length is L ≥ 44
and whose body (the bytes after the header, the 32-bit local-interrupt-
controller address and the 32-bit flags) is an exact sequence of
records, the parsing loop starts at addr + 36 + 8, terminates with the
cursor exactly at addr + L, and the record lengths it consumed total
L - 44. -/
theorem madt_parse_consumes_exact_length (mem : Nat → Nat) (addr : Nat)
    (header : DescriptionHeader) (fuel : Nat)
    (hL : 44 ≤ header.length)
    (ht : Tiles mem (addr + 44) (addr + header.length))
    (hf : header.length - 44 ≤ fuel) :
    (MADT.from_header mem addr header fuel).loop
        = madtLoop mem (addr + header.length) fuel (addr + 36 + 8)
  ∧ (MADT.from_header mem addr header fuel).loop.cursor = addr + header.length
  ∧ (MADT.from_header mem addr header fuel).loop.completed = true
  ∧ (MADT.from_header mem addr header fuel).loop.cursor - (addr + 36 + 8)
        = header.length - 44 := by
  have h44 : addr + 36 + 8 = addr + 44 := by omega
  have hfuel : (addr + header.length) - (addr + 44) ≤ fuel := by omega
  have h := madtLoop_tiles_cursor mem ht fuel hfuel
  have hloop : (MADT.from_header mem addr header fuel).loop
      = madtLoop mem (addr + header.length) fuel (addr + 36 + 8) := by
    simp [MADT.from_header, DESCRIPTION_HEADER_SIZE]
  rw [h44] at hloop
  refine ⟨by rw [hloop, h44], ?_, ?_, ?_⟩
  · rw [hloop]; exact h.1
  · rw [hloop]; exact h.2
  · rw [hloop, h.1]; omega

/-- Witness for C7 on the fixture table: its two records (lengths 8 and
12) tile the 20 bytes of body exactly, and the loop's final cursor is
0 + 64. -/
theorem madt_parse_consumes_exact_length_witness :
    (MADT.from_header madtMem 0 madtHeader 20).loop.cursor = 0 + madtHeader.length := by
  have t44 : Tiles madtMem 44 64 :=
    Tiles.cons 44 64 (by decide) (by decide) (by decide)
      (Tiles.cons 52 64 (by decide) (by decide) (by decide) (Tiles.done 64))
  exact (madt_parse_consumes_exact_length madtMem 0 madtHeader 20 (by decide) t44
    (by decide)).2.1

theorem madtLoop_completes_of_reach (mem : Nat → Nat) (start endA : Nat)
    (hlen : ∀ c, Reaches mem start endA c → c < endA → 0 < readByte mem (c + 1)) :
    ∀ fuel cursor, Reaches mem start endA cursor → endA - cursor ≤ fuel →
      (madtLoop mem endA fuel cursor).completed = true := by
  intro fuel
  induction fuel with
  | zero =>
    intro cursor hr hf
    rw [madtLoop_exit _ _ _ _ (by omega)]
  | succ n ih =>
    intro cursor hr hf
    by_cases hc : cursor < endA
    · have hpos := hlen cursor hr hc
      have hr' := Reaches.step cursor hr hc
      have hf' : endA - (cursor + readByte mem (cursor + 1)) ≤ n := by omega
      have h := ih _ hr' hf'
      rw [madtLoop_step _ _ _ _ hc]
      simpa [decodeIntCtrlHeader, readByte] using h
    · rw [madtLoop_exit _ _ _ _ hc]

/-- C10: when every record the cursor reaches declares a positive
length, the record loop terminates (a fuel of table-body size already
suffices, since the cursor strictly advances until it reaches or passes
the end); and the precondition is necessary: on all-zero memory the
record at cursor 44 declares length 0 and no amount of fuel completes
the loop. -/
theorem madt_loop_termination :
    (∀ (mem : Nat → Nat) (start endA : Nat),
        (∀ c, Reaches mem start endA c → c < endA → 0 < readByte mem (c + 1)) →
        (madtLoop mem endA (endA - start) start).completed = true)
  ∧ (∀ fuel, (madtLoop zeroMem 50 fuel 44).completed = false) := by
  constructor
  · intro mem start endA hlen
    exact madtLoop_completes_of_reach mem start endA hlen (endA - start) start
      Reaches.refl (by omega)
  · intro fuel
    induction fuel with
    | zero => rw [madtLoop_zero _ _ _ (by decide)]
    | succ n ih =>
      rw [madtLoop_step _ _ _ _ (by decide)]
      simpa [decodeIntCtrlHeader, readByte, zeroMem] using ih

/-- Witness for C10's termination statement: on all-one memory (every
reached record declares length 1) the loop over the two-byte body
completes. -/
theorem madt_loop_termination_witness :
    (madtLoop oneMem 46 (46 - 44) 44).completed = true :=
  madt_loop_termination.1 oneMem 44 46 (fun c _ _ => by simp [readByte, oneMem])

/-- C8 counterexample: a 36-byte sequence whose 8-byte signature field
is exactly "RSD PTR " on which read_rsdp nevertheless aborts instead of
returning the decoded fields — its oemid bytes are not valid UTF-8 and
the str::from_utf8 unwrap on them fails before the function returns. -/
theorem read_rsdp_correct_signature_can_abort :
    (decodeRSDP (memOfBytes rsdpBadOemBytes) 0).signature = RSD_PTR_SIGNATURE
  ∧ read_rsdp_validate (memOfBytes rsdpBadOemBytes) 0 = none := by
  exact ⟨by decide, by decide⟩

theorem decodeRSDP_memOfRSDP (v : RSDP)
    (h1 : v.signature < 256 ^ 8) (h2 : v.checksum < 256) (h3 : v.oemid < 256 ^ 6)
    (h4 : v.revision < 256) (h5 : v.rsdt_addr < 256 ^ 4) (h6 : v.length < 256 ^ 4)
    (h7 : v.xsdt_addr < 256 ^ 8) (h8 : v.ext_checksum < 256) (h9 : v.reserved < 256 ^ 3) :
    decodeRSDP (memOfRSDP v) 0 = v := by
  obtain ⟨sig, ck, oem, rev, rsdt, len, xsdt, ext, res⟩ := v
  simp only [decodeRSDP, readU32, readU64, readLE, readByte, memOfRSDP] at *
  norm_num at *
  refine ⟨?_, ?_, ?_, ?_, ?_, ?_, ?_, ?_, ?_⟩ <;> omega

/-- C8 (amended): a 36-byte RootPointer sequence with the correct
signature passes validation and has every field returned verbatim
provided its oemid bytes are also valid UTF-8 (the code unwraps a UTF-8
decode of oemid before returning, so a correct signature alone does not
guarantee success); any sequence whose signature field differs from
"RSD PTR " — in particular one with a mutated signature byte — aborts. -/
theorem read_rsdp_roundtrip_and_mutation (v : RSDP)
    (hsig : v.signature = RSD_PTR_SIGNATURE)
    (hoem : utf8Valid (bytesOfLE 6 v.oemid) = true)
    (h2 : v.checksum < 256) (h3 : v.oemid < 256 ^ 6)
    (h4 : v.revision < 256) (h5 : v.rsdt_addr < 256 ^ 4) (h6 : v.length < 256 ^ 4)
    (h7 : v.xsdt_addr < 256 ^ 8) (h8 : v.ext_checksum < 256) (h9 : v.reserved < 256 ^ 3) :
    read_rsdp_validate (memOfRSDP v) 0 = some v
  ∧ (∀ mem addr, (decodeRSDP mem addr).signature ≠ RSD_PTR_SIGNATURE →
      read_rsdp_validate mem addr = none) := by
  constructor
  · have h1 : v.signature < 256 ^ 8 := by rw [hsig]; decide
    have hd := decodeRSDP_memOfRSDP v h1 h2 h3 h4 h5 h6 h7 h8 h9
    unfold read_rsdp_validate
    rw [hd]
    simp [hsig, hoem]
  · intro mem addr hne
    unfold read_rsdp_validate
    simp [hne]

/-- Witness for C8's amended statement at the concrete record rsdpGood
(signature "RSD PTR ", ASCII oemid): validation succeeds and returns
it verbatim. -/
theorem read_rsdp_roundtrip_and_mutation_witness :
    read_rsdp_validate (memOfRSDP rsdpGood) 0 = some rsdpGood :=
  (read_rsdp_roundtrip_and_mutation rsdpGood rfl (by decide) (by decide) (by decide)
    (by decide) (by decide) (by decide) (by decide) (by decide) (by decide)).1

end Pril
